import Mathlib

/-!
Verification development for the wallet FFI core
(src/packages/wallet/native/wallet-ffi/src/lib.rs).

The Rust source is shallowly embedded: machine integers (u64, u32) are
modeled as Nat, i32 ports as Int, f64 fee rates as Rat (no floating-point
arithmetic is performed on them in the modeled code paths, they are only
constructed, compared and passed through).  Byte buffers and scripts are
List Nat.  External collaborators (bdk wallet, electrum client, payjoin
crate, HTTP transport) enter as explicit environment parameters holding
their results, so that every boundary operation becomes a total function
of its inputs and of those environment results.

A boundary operation's observable behavior is a `BoundaryResult`:
- `ok v`        : normal return of `v`, error channel untouched;
- `reported e v`: `update_last_error(e)` was called and the sentinel `v`
                  returned (the `unwrap_or_return!` macro in the source);
- `panicked m`  : an `unwrap()` / `expect(m)` / arithmetic overflow fired,
                  i.e. the failure unwinds across the FFI boundary.
-/

/-- A script pubkey, as an opaque byte string. -/
abbrev Script := List Nat

/-- Models `bdk::bitcoin::TxOut`: an output value in satoshis plus its
script pubkey. -/
structure TxOut where
  value : Nat
  script_pubkey : Script
  deriving DecidableEq

/-- Models `bdk::bitcoin::TxIn`: previous output reference, scriptSig and
witness stack. -/
structure TxIn where
  prev_txid : Nat
  prev_vout : Nat
  script_sig : List Nat
  witness : List (List Nat)
  deriving DecidableEq

/-- Models `bdk::bitcoin::Transaction`. -/
structure Transaction where
  version : Int
  lock_time : Nat
  input : List TxIn
  output : List TxOut
  deriving DecidableEq

/-- Models one PSBT input map (`bdk::bitcoin::util::psbt::Input`): the
witness-utxo annotation, the signatures present, and the final
scriptSig/witness produced by finalization. -/
structure PsbtIn where
  witness_utxo : Option TxOut
  sigs : List (List Nat)
  final_script_sig : Option (List Nat)
  final_script_witness : Option (List (List Nat))
  deriving DecidableEq

/-- Models the PSBT container type of the source (an unsigned transaction
plus one input map per transaction input). -/
structure Pstx where
  unsigned_tx : Transaction
  inputs : List PsbtIn
  deriving DecidableEq

/-- Models the `#[repr(C)] struct Psbt` result record returned across the
FFI boundary.  The `base64`, `txid` and `raw_tx` C strings are modeled as
the byte lists they would contain; the null pointers of the all-zero error
record are modeled as empty lists. -/
structure Psbt where
  sent : Nat
  received : Nat
  fee : Nat
  base64 : List Nat
  txid : List Nat
  raw_tx : List Nat
  deriving DecidableEq

/-- Observable behavior of one FFI boundary call: a normal return, a
sentinel return after `update_last_error` (the Error Channel), or a panic
unwinding across the boundary. -/
inductive BoundaryResult (α : Type) where
  | ok (value : α)
  | reported (err : String) (value : α)
  | panicked (msg : String)
  deriving DecidableEq

/-- Models `bdk::blockchain::ElectrumBlockchainConfig` (the sync-capable
blockchain handle's configuration record). -/
structure ElectrumBlockchainConfig where
  url : String
  socks5 : Option String
  retry : Nat
  timeout : Option Nat
  stop_gap : Nat
  validate_domain : Bool
  deriving DecidableEq

/-- Models `electrum_client::Socks5Config`. -/
structure Socks5Config where
  addr : String
  credentials : Option (String × String)
  deriving DecidableEq

/-- Models `electrum_client::Config` as built by `ConfigBuilder`.  Note
that this crate-level client configuration has no gap-limit (`stop_gap`)
field at all; the gap limit exists only on the bdk blockchain
configuration above. -/
structure ElectrumClientConfig where
  socks5 : Option Socks5Config
  timeout : Option Nat
  retry : Nat
  validate_domain : Bool
  deriving DecidableEq

/-- The gap limit carried by a blockchain configuration. -/
def ElectrumBlockchainConfig.gapLimit (c : ElectrumBlockchainConfig) : Option Nat :=
  some c.stop_gap

/-- The gap limit carried by a client configuration: the
`electrum_client::Config` type has no such field, so no constructor of it
can fix one. -/
def ElectrumClientConfig.gapLimit (_ : ElectrumClientConfig) : Option Nat :=
  none

/-- Models `electrum_client::ConfigBuilder::new()` (the crate's default
configuration: no proxy, no timeout, one retry, domain validation on). -/
def configBuilderNew : ElectrumClientConfig :=
  { socks5 := none, timeout := none, retry := 1, validate_domain := true }

/-- Models `ConfigBuilder::validate_domain`. -/
def setValidateDomain (c : ElectrumClientConfig) (b : Bool) : ElectrumClientConfig :=
  { c with validate_domain := b }

/-- Models `ConfigBuilder::socks5`, which refuses a proxy when a timeout
is already configured. -/
def setSocks5 (c : ElectrumClientConfig) (s : Option Socks5Config) :
    Except String ElectrumClientConfig :=
  if s.isSome && c.timeout.isSome then .error "both socks and timeout"
  else .ok { c with socks5 := s }

/-- Models `ConfigBuilder::timeout`, which refuses a timeout when a proxy
is already configured. -/
def setTimeout (c : ElectrumClientConfig) (t : Option Nat) :
    Except String ElectrumClientConfig :=
  if t.isSome && c.socks5.isSome then .error "both socks and timeout"
  else .ok { c with timeout := t }

/-- Models `get_electrum_blockchain_config` from the source: positive tor
port selects the SOCKS5 loopback proxy with no timeout, otherwise direct
mode with a 5 second timeout; both variants use `stop_gap` 50 and disable
domain validation. -/
def get_electrum_blockchain_config (tor_port : Int) (electrum_address : String) :
    ElectrumBlockchainConfig :=
  if tor_port > 0 then
    { url := electrum_address
      socks5 := some ("127.0.0.1:" ++ toString tor_port)
      retry := 0
      timeout := none
      stop_gap := 50
      validate_domain := false }
  else
    { url := electrum_address
      socks5 := none
      retry := 0
      timeout := some 5
      stop_gap := 50
      validate_domain := false }

/-- Models the configuration-building part of `get_electrum_client` from
the source (the chain of `ConfigBuilder` calls, whose `unwrap()`s are the
error case here); the subsequent network connection
(`Client::from_config`) is external and is supplied as an environment
parameter where needed. -/
def get_electrum_client (tor_port : Int) (_electrum_address : String) :
    Except String ElectrumClientConfig :=
  if tor_port > 0 then
    match setSocks5 (setValidateDomain configBuilderNew false)
        (some { addr := "127.0.0.1:" ++ toString tor_port, credentials := none }) with
    | .error e => .error e
    | .ok c => .ok c
  else
    match setSocks5 (setValidateDomain configBuilderNew false) none with
    | .error e => .error e
    | .ok c =>
      match setTimeout c (some 5) with
      | .error e => .error e
      | .ok c2 => .ok c2

/-!
## Serialization layer

The external codecs used by the source (`bdk::bitcoin::consensus::encode`,
the `base64` crate, `to_hex`) are modeled by concrete executable codecs
over `List Nat`.  The byte-level layouts differ from the consensus/base64
wire formats, but every structural property the source relies on is kept:
each encoder is injective, each decoder inverts its encoder, the
transaction id is derived from the witness-stripped serialization only,
and the full serialization additionally commits to the witness data.
-/

/-- Length-prefixed byte string. -/
def encBytes (xs : List Nat) : List Nat := xs.length :: xs

/-- Inverse of `encBytes`. -/
def decBytes : List Nat → Except String (List Nat × List Nat)
  | [] => .error "eof"
  | n :: rest =>
    if n ≤ rest.length then .ok (rest.take n, rest.drop n) else .error "eof"

/-- Single natural number. -/
def encNat (n : Nat) : List Nat := [n]

/-- Inverse of `encNat`. -/
def decNat : List Nat → Except String (Nat × List Nat)
  | [] => .error "eof"
  | n :: rest => .ok (n, rest)

/-- Sign-and-magnitude integer. -/
def encInt (i : Int) : List Nat := [if i < 0 then 1 else 0, i.natAbs]

/-- Inverse of `encInt`. -/
def decInt : List Nat → Except String (Int × List Nat)
  | s :: n :: rest => .ok (if s = 1 then -(n : Int) else (n : Int), rest)
  | _ => .error "eof"

/-- Count-prefixed sequence of encoded elements. -/
def encCount (f : α → List Nat) (xs : List α) : List Nat :=
  xs.length :: (xs.map f).flatten

/-- Decode exactly `n` elements with the element decoder `dec`. -/
def decSeq (dec : List Nat → Except String (α × List Nat)) :
    Nat → List Nat → Except String (List α × List Nat)
  | 0, l => .ok ([], l)
  | n + 1, l =>
    match dec l with
    | .error e => .error e
    | .ok (a, l1) =>
      match decSeq dec n l1 with
      | .error e => .error e
      | .ok (as, l2) => .ok (a :: as, l2)

/-- Inverse of `encCount`. -/
def decCount (dec : List Nat → Except String (α × List Nat)) :
    List Nat → Except String (List α × List Nat)
  | [] => .error "eof"
  | n :: rest => decSeq dec n rest

/-- Tagged optional value. -/
def encOpt (f : α → List Nat) : Option α → List Nat
  | none => [0]
  | some a => 1 :: f a

/-- Inverse of `encOpt`. -/
def decOpt (dec : List Nat → Except String (α × List Nat)) :
    List Nat → Except String (Option α × List Nat)
  | 0 :: rest => .ok (none, rest)
  | 1 :: rest =>
    match dec rest with
    | .error e => .error e
    | .ok (a, l) => .ok (some a, l)
  | _ => .error "bad tag"

/-- Encoded transaction output. -/
def encTxOut (o : TxOut) : List Nat :=
  encNat o.value ++ encBytes o.script_pubkey

/-- Inverse of `encTxOut`. -/
def decTxOut (l : List Nat) : Except String (TxOut × List Nat) :=
  match decNat l with
  | .error e => .error e
  | .ok (v, l1) =>
    match decBytes l1 with
    | .error e => .error e
    | .ok (s, l2) => .ok ({ value := v, script_pubkey := s }, l2)

/-- Transaction input without its witness stack (the data the txid
commits to). -/
def encTxInNW (i : TxIn) : List Nat :=
  encNat i.prev_txid ++ encNat i.prev_vout ++ encBytes i.script_sig

/-- Transaction input including its witness stack. -/
def encTxInFull (i : TxIn) : List Nat :=
  encNat i.prev_txid ++ encNat i.prev_vout ++ encBytes i.script_sig ++
    encCount encBytes i.witness

/-- Inverse of `encTxInFull`. -/
def decTxInFull (l : List Nat) : Except String (TxIn × List Nat) :=
  match decNat l with
  | .error e => .error e
  | .ok (t, l1) =>
    match decNat l1 with
    | .error e => .error e
    | .ok (v, l2) =>
      match decBytes l2 with
      | .error e => .error e
      | .ok (ss, l3) =>
        match decCount decBytes l3 with
        | .error e => .error e
        | .ok (w, l4) =>
          .ok ({ prev_txid := t, prev_vout := v, script_sig := ss, witness := w }, l4)

/-- Witness-stripped transaction serialization: models the byte string the
transaction id (`tx.txid()`) is computed from.  The hash itself is an
injection of exactly this data, so it is modeled by the serialization. -/
def serializeNW (tx : Transaction) : List Nat :=
  encInt tx.version ++ encNat tx.lock_time ++
    encCount encTxInNW tx.input ++ encCount encTxOut tx.output

/-- Full consensus serialization including witnesses: models
`serialize::<bdk::bitcoin::Transaction>(&tx)`. -/
def serializeFull (tx : Transaction) : List Nat :=
  encInt tx.version ++ encNat tx.lock_time ++
    encCount encTxInFull tx.input ++ encCount encTxOut tx.output

/-- Inverse of `serializeFull`. -/
def decTxFull (l : List Nat) : Except String (Transaction × List Nat) :=
  match decInt l with
  | .error e => .error e
  | .ok (ver, l1) =>
    match decNat l1 with
    | .error e => .error e
    | .ok (lt, l2) =>
      match decCount decTxInFull l2 with
      | .error e => .error e
      | .ok (ins, l3) =>
        match decCount decTxOut l3 with
        | .error e => .error e
        | .ok (outs, l4) =>
          .ok ({ version := ver, lock_time := lt, input := ins, output := outs }, l4)

/-- Encoded PSBT input map. -/
def encPsbtIn (i : PsbtIn) : List Nat :=
  encOpt encTxOut i.witness_utxo ++ encCount encBytes i.sigs ++
    encOpt encBytes i.final_script_sig ++ encOpt (encCount encBytes) i.final_script_witness

/-- Inverse of `encPsbtIn`. -/
def decPsbtIn (l : List Nat) : Except String (PsbtIn × List Nat) :=
  match decOpt decTxOut l with
  | .error e => .error e
  | .ok (wu, l1) =>
    match decCount decBytes l1 with
    | .error e => .error e
    | .ok (sg, l2) =>
      match decOpt decBytes l2 with
      | .error e => .error e
      | .ok (fs, l3) =>
        match decOpt (decCount decBytes) l3 with
        | .error e => .error e
        | .ok (fw, l4) =>
          .ok ({ witness_utxo := wu, sigs := sg, final_script_sig := fs,
                 final_script_witness := fw }, l4)

/-- Models `serialize(&psbt)`: unsigned transaction followed by the input
maps. -/
def psbtSerialize (p : Pstx) : List Nat :=
  serializeFull p.unsigned_tx ++ encCount encPsbtIn p.inputs

/-- Models `deserialize::<PartiallySignedTransaction>`: inverse of
`psbtSerialize`, rejecting trailing bytes. -/
def psbtDeserialize (l : List Nat) : Except String Pstx :=
  match decTxFull l with
  | .error e => .error e
  | .ok (tx, l1) =>
    match decCount decPsbtIn l1 with
    | .error e => .error e
    | .ok (ins, l2) =>
      if l2 = [] then .ok { unsigned_tx := tx, inputs := ins }
      else .error "trailing bytes"

/-- Models `base64::encode`: each byte becomes two sextet symbols (the
symbol-to-ASCII alphabet map, a bijection on symbols, is omitted). -/
def base64Encode (bs : List Nat) : List Nat :=
  (bs.map (fun b => [b % 64, b / 64])).flatten

/-- Models `base64::decode`: inverse of `base64Encode`. -/
def base64Decode : List Nat → Except String (List Nat)
  | [] => .ok []
  | lo :: hi :: rest =>
    match base64Decode rest with
    | .error e => .error e
    | .ok bs => .ok ((lo + 64 * hi) :: bs)
  | [_] => .error "bad base64 length"

/-- Models `to_hex` over a byte string: two hex digit characters per
byte. -/
def hexDigitChar (n : Nat) : Nat := if n < 10 then 48 + n else 87 + n

/-- Hex encoding of a byte string, as used for `raw_tx` and the displayed
transaction id. -/
def toHex (bs : List Nat) : List Nat :=
  (bs.map (fun b => [hexDigitChar (b / 16), hexDigitChar (b % 16)])).flatten

/-!
## PSBT detail extraction and the boundary operations
-/

/-- A wallet ownership query: models `wallet.is_mine(&script)`, which
returns `Result<bool, Error>`. -/
abbrev OwnQuery := Script → Except String Bool

/-- Models `wallet.is_mine(&script).unwrap_or(false)`: a failing ownership
lookup classifies the script as not owned. -/
def isMineDefault (own : OwnQuery) (s : Script) : Bool :=
  ((own s).toOption).getD false

/-- Models `Psbt::extract_tx` of the bitcoin library: the unsigned
transaction with each input's scriptSig and witness replaced by the
corresponding input map's final fields (empty when absent). -/
def applyFinal (tin : TxIn) (pin : PsbtIn) : TxIn :=
  { tin with
    script_sig := pin.final_script_sig.getD []
    witness := pin.final_script_witness.getD [] }

/-- The transaction extracted from a PSBT. -/
def extract_tx (p : Pstx) : Transaction :=
  { p.unsigned_tx with
    input := List.zipWith applyFinal p.unsigned_tx.input p.inputs }

/-- Sum of output values whose script the wallet does not recognize as its
own (the source's first filtered iterator in `psbt_extract_details`). -/
def sentSum (own : OwnQuery) (tx : Transaction) : Nat :=
  ((tx.output.filter (fun o => ! isMineDefault own o.script_pubkey)).map TxOut.value).sum

/-- Sum of output values whose script the wallet recognizes as its own
(the source's second filtered iterator in `psbt_extract_details`). -/
def receivedSum (own : OwnQuery) (tx : Transaction) : Nat :=
  ((tx.output.filter (fun o => isMineDefault own o.script_pubkey)).map TxOut.value).sum

/-- Total input value as the source computes it: the sum over the PSBT
input maps of the witness-utxo value, an input without a witness-utxo
annotation contributing 0. -/
def inputsValue (p : Pstx) : Nat :=
  (p.inputs.map (fun i =>
    match i.witness_utxo with
    | none => 0
    | some u => u.value)).sum

/-- Models `psbt_extract_details`.  The fee is the unguarded u64
subtraction `inputs_value - sent - received` of the source, which panics
(checked-arithmetic semantics) when the outputs exceed the witness-utxo
input sum. -/
def psbt_extract_details (own : OwnQuery) (p : Pstx) : BoundaryResult Psbt :=
  let tx := extract_tx p
  let sent := sentSum own tx
  let received := receivedSum own tx
  let inputs_value := inputsValue p
  if sent + received ≤ inputs_value then
    .ok { sent := sent
          received := received
          fee := inputs_value - sent - received
          base64 := base64Encode (psbtSerialize p)
          txid := toHex (serializeNW tx)
          raw_tx := toHex (serializeFull tx) }
  else
    .panicked "attempt to subtract with overflow"

/-- The zero-valued/null sentinel record (`error_return` in the source). -/
def error_return : Psbt :=
  { sent := 0, received := 0, fee := 0, base64 := [], txid := [], raw_tx := [] }

/-- Models `bdk::bitcoin::Address` as consumed by the source: its script
pubkey and its network tag. -/
structure Address where
  script_pubkey : Script
  network : Nat
  deriving DecidableEq

/-- The result of `wallet.build_tx()...finish()` for a given recipient
script, amount and fee rate: external bdk coin selection, supplied as an
environment function. -/
abbrev BuildFinish := Script → Nat → Rat → Except String Pstx

/-- Environment for the payjoin exchange: `create_pj_request` (request
url/body), the blocking HTTP POST, and `ctx.process_response` (the
receiver's counter-PSBT after protocol validation).  All three are
external calls whose results are supplied here. -/
structure PjEnv where
  createRequest : Pstx → Except String (Nat × Nat)
  send : Nat → Nat → Except String Nat
  processResponse : Nat → Except String Pstx

/-- Models `create_transaction`: build a PSBT for the destination and
extract its details; a build failure is reported to the Error Channel and
the zero record returned. -/
def create_transaction (own : OwnQuery) (finish : BuildFinish)
    (send_to : Address) (amount : Nat) (fee_rate : Rat) : BoundaryResult Psbt :=
  match finish send_to.script_pubkey amount fee_rate with
  | .ok psbt => psbt_extract_details own psbt
  | .error e => .reported e error_return

/-- Models `create_payjoin`.  Every failure point in the source is an
`expect`/`unwrap` (the build, the request construction, the HTTP exchange
and the counter-PSBT processing), so each failure panics across the
boundary; the source's `error_return` binding is never used. -/
def create_payjoin (own : OwnQuery) (finish : BuildFinish) (env : PjEnv)
    (pj_address : Address) (amount : Nat) (fee_rate : Rat) : BoundaryResult Psbt :=
  match finish pj_address.script_pubkey amount fee_rate with
  | .error _ => .panicked "Could not create original psbt"
  | .ok original_psbt =>
    match env.createRequest original_psbt with
    | .error _ => .panicked "zoinks! cannot create request"
    | .ok (url, body) =>
      match env.send url body with
      | .error _ => .panicked "failed to communicate with payjoin recipient"
      | .ok response =>
        match env.processResponse response with
        | .error e => .panicked e
        | .ok payjoin_psbt => psbt_extract_details own payjoin_psbt

/-- Result of `payjoin::Uri::try_from` when it succeeds: the embedded
address, and whether `check_pj_supported()` succeeds on it. -/
structure UriInfo where
  address : Address
  pj_supported : Bool
  deriving DecidableEq

/-- Models `wallet_create_psbt`: destination routing.  `uriOf` is the
external payjoin URI parser, `addressOf` the external bare-address parser.
The fee rate is converted once from BTC/kvB to sat/vB by the source's
fixed factor. -/
def wallet_create_psbt (own : OwnQuery) (finish : BuildFinish) (env : PjEnv)
    (uriOf : String → Option UriInfo) (addressOf : String → Option Address)
    (send_to : String) (amount : Nat) (fee_rate : Rat) : BoundaryResult Psbt :=
  let fr := fee_rate * 100000
  match uriOf send_to with
  | some uri =>
    if uri.pj_supported then create_payjoin own finish env uri.address amount fr
    else create_transaction own finish uri.address amount fr
  | none =>
    match addressOf send_to with
    | some a => create_transaction own finish a amount fr
    | none => .reported "address parse error" error_return

/-- Modelled from the spec: `PsbtExt::finalize` of the external miniscript
library is not part of the source; per the spec it "only assembles
already-present signatures, it does not sign" and fails on missing
signatures.  An input already carrying a final witness is left untouched;
otherwise its signatures, if any, are assembled into the final witness
(with an empty final scriptSig, the witness-only shape the builder
produces); an input with no signatures fails finalization. -/
def finalizeInput (i : PsbtIn) : Except String PsbtIn :=
  match i.final_script_witness with
  | some _ => .ok i
  | none =>
    if i.sigs.isEmpty then .error "missing signatures"
    else
      .ok { i with
            final_script_sig := some (i.final_script_sig.getD [])
            final_script_witness := some i.sigs }

/-- Finalize every input map in order, failing on the first failure. -/
def finalizeInputs : List PsbtIn → Except String (List PsbtIn)
  | [] => .ok []
  | i :: rest =>
    match finalizeInput i with
    | .error e => .error e
    | .ok fi =>
      match finalizeInputs rest with
      | .error e => .error e
      | .ok frest => .ok (fi :: frest)

/-- Modelled from the spec: whole-PSBT finalization (see
`finalizeInput`). -/
def psbtFinalize (p : Pstx) : Except String Pstx :=
  match finalizeInputs p.inputs with
  | .error e => .error e
  | .ok is => .ok { p with inputs := is }

/-- Models `wallet_decode_psbt`: base64 decode and PSBT deserialization
failures are reported to the Error Channel with the zero record, but the
finalization result is `unwrap()`ed in the source, so a finalization
failure panics across the boundary. -/
def wallet_decode_psbt (own : OwnQuery) (psbt_b64 : List Nat) : BoundaryResult Psbt :=
  match base64Decode psbt_b64 with
  | .error e => .reported e error_return
  | .ok data =>
    match psbtDeserialize data with
    | .error e => .reported e error_return
    | .ok psbt =>
      match psbtFinalize psbt with
      | .error e => .panicked e
      | .ok finalized_psbt => psbt_extract_details own finalized_psbt

/-- Models `wallet_get_fee_rate`.  `connect` is the external
`Client::from_config` (its failure is reported and `-1.0` returned);
`estimate` is the external `client.estimate_fee(target)` whose failure is
absorbed by `unwrap_or(-1.0)` without touching the Error Channel, and
whose success value (BTC per kB) is returned unchanged. -/
def wallet_get_fee_rate (tor_port : Int) (electrum_address : String)
    (connect : ElectrumClientConfig → Except String Unit)
    (estimate : Nat → Except String Rat) (target : Nat) : BoundaryResult Rat :=
  match get_electrum_client tor_port electrum_address with
  | .error e => .panicked e
  | .ok cfg =>
    match connect cfg with
    | .error e => .reported e (-1)
    | .ok _ => .ok (((estimate target).toOption).getD (-1))

/-!
## Concrete instances used to evaluate the boundary operations
-/

/-- A concrete ownership query: script `[3]` is owned, script `[0]` makes
the wallet query fail, anything else is not owned. -/
def own0 : OwnQuery := fun s =>
  if s = [3] then .ok true
  else if s = [0] then .error "ownership query failed"
  else .ok false

/-- An ownership query owning nothing. -/
def ownAllFalse : OwnQuery := fun _ => .ok false

/-- An unsigned single-input PSBT as the transaction builder produces it:
witness-utxo annotated, no signatures, no final fields. -/
def p0 : Pstx :=
  { unsigned_tx :=
      { version := 1, lock_time := 0
        input := [{ prev_txid := 5, prev_vout := 0, script_sig := [], witness := [] }]
        output := [{ value := 40, script_pubkey := [7] }] }
    inputs := [{ witness_utxo := some { value := 50, script_pubkey := [3] }
                 sigs := [], final_script_sig := none, final_script_witness := none }] }

/-- A signed but not yet finalized single-input PSBT. -/
def p1 : Pstx :=
  { unsigned_tx :=
      { version := 1, lock_time := 0
        input := [{ prev_txid := 5, prev_vout := 0, script_sig := [], witness := [] }]
        output := [{ value := 40, script_pubkey := [7] },
                   { value := 30, script_pubkey := [3] }] }
    inputs := [{ witness_utxo := some { value := 100, script_pubkey := [3] }
                 sigs := [[9]], final_script_sig := none, final_script_witness := none }] }

/-- The finalized form of `p1`. -/
def q1 : Pstx :=
  { unsigned_tx := p1.unsigned_tx
    inputs := [{ witness_utxo := some { value := 100, script_pubkey := [3] }
                 sigs := [[9]], final_script_sig := some []
                 final_script_witness := some [[9]] }] }

/-- A PSBT whose outputs include an owned script, a foreign script and a
script on which the ownership query fails, covered by witness-utxo
annotations. -/
def p4 : Pstx :=
  { unsigned_tx :=
      { version := 1, lock_time := 0
        input := [{ prev_txid := 8, prev_vout := 1, script_sig := [], witness := [] }]
        output := [{ value := 60, script_pubkey := [2] },
                   { value := 30, script_pubkey := [3] },
                   { value := 5, script_pubkey := [0] }] }
    inputs := [{ witness_utxo := some { value := 100, script_pubkey := [3] }
                 sigs := [[4]], final_script_sig := none, final_script_witness := none }] }

/-- A decodable PSBT with no inputs at all (so no witness-utxo data) but a
nonzero output: its outputs exceed its witness-utxo input sum. -/
def pBad : Pstx :=
  { unsigned_tx :=
      { version := 1, lock_time := 0, input := []
        output := [{ value := 1, script_pubkey := [2] }] }
    inputs := [] }

/-- The record `psbt_extract_details` produces for `p0` under `own0`. -/
def rec0 : Psbt :=
  { sent := 40, received := 0, fee := 10
    base64 := base64Encode (psbtSerialize p0)
    txid := toHex (serializeNW (extract_tx p0))
    raw_tx := toHex (serializeFull (extract_tx p0)) }

/-- A concrete destination address with script `[7]`. -/
def addr7 : Address := { script_pubkey := [7], network := 0 }

/-- A build environment that always returns `p0`. -/
def finishP0 : BuildFinish := fun _ _ _ => .ok p0

/-- A build environment in which coin selection always fails. -/
def finishErr : BuildFinish := fun _ _ _ => .error "insufficient funds"

/-- A payjoin exchange environment whose externals all succeed trivially
until the response processing. -/
def envNoop : PjEnv :=
  { createRequest := fun _ => .ok (0, 0)
    send := fun _ _ => .ok 0
    processResponse := fun _ => .error "no response" }

/-- A payjoin exchange environment whose HTTP POST fails. -/
def envSendFail : PjEnv :=
  { createRequest := fun _ => .ok (0, 0)
    send := fun _ _ => .error "connection reset"
    processResponse := fun _ => .error "no response" }

/-- A URI parser that always reports a payjoin-capable URI. -/
def uriPj : String → Option UriInfo :=
  fun _ => some { address := { script_pubkey := [6], network := 0 }, pj_supported := true }

/-- An address parser that never succeeds. -/
def addrNone : String → Option Address := fun _ => none

/-- A URI parser with one payjoin-capable and one plain URI. -/
def uriOf3 : String → Option UriInfo := fun d =>
  if d = "pjuri" then some { address := { script_pubkey := [1], network := 0 }, pj_supported := true }
  else if d = "plainuri" then some { address := { script_pubkey := [2], network := 0 }, pj_supported := false }
  else none

/-- An address parser recognizing exactly one string. -/
def addressOf3 : String → Option Address := fun d =>
  if d = "addr" then some { script_pubkey := [3], network := 0 } else none

/-- A connection environment that always succeeds. -/
def conn7 : ElectrumClientConfig → Except String Unit := fun _ => .ok ()

/-- A connection environment that always fails. -/
def connFail : ElectrumClientConfig → Except String Unit := fun _ => .error "connection refused"

/-- A fee estimator answering the Electrum no-estimate sentinel `-1`. -/
def est7 : Nat → Except String Rat := fun _ => .ok (-1)

/-- A fee estimator whose request fails. -/
def estErr : Nat → Except String Rat := fun _ => .error "no estimate available"

/-- A fee estimator answering a positive rate. -/
def estPos : Nat → Except String Rat := fun _ => .ok (1 / 10)

/-- The client configuration built in direct mode. -/
def cfgDirect : ElectrumClientConfig :=
  { socks5 := none, timeout := some 5, retry := 1, validate_domain := false }

/-!
## Codec round-trip lemmas
-/

/-- `decBytes` inverts `encBytes`. -/
theorem decBytes_spec (xs r : List Nat) : decBytes (encBytes xs ++ r) = .ok (xs, r) := by
  show decBytes (xs.length :: (xs ++ r)) = .ok (xs, r)
  simp [decBytes, List.take_left, List.drop_left, Nat.le_add_right]

/-- `decNat` inverts `encNat`. -/
theorem decNat_spec (n : Nat) (r : List Nat) : decNat (encNat n ++ r) = .ok (n, r) := rfl

/-- `decInt` inverts `encInt`. -/
theorem decInt_spec (i : Int) (r : List Nat) : decInt (encInt i ++ r) = .ok (i, r) := by
  by_cases h : i < 0
  · simp only [encInt, if_pos h, List.cons_append, List.nil_append, decInt, if_pos rfl]
    rw [Int.ofNat_natAbs_of_nonpos h.le, neg_neg]
    simp
  · have h0 : (0 : Nat) ≠ 1 := by decide
    simp only [encInt, if_neg h, List.cons_append, List.nil_append, decInt, if_neg h0]
    rw [Int.natAbs_of_nonneg (not_lt.mp h)]

/-- `decSeq` inverts a flattened map of encodings, given a sound element
decoder. -/
theorem decSeq_spec (dec : List Nat → Except String (α × List Nat)) (f : α → List Nat)
    (h : ∀ a r, dec (f a ++ r) = .ok (a, r)) :
    ∀ (xs : List α) (r : List Nat),
      decSeq dec xs.length ((xs.map f).flatten ++ r) = .ok (xs, r) := by
  intro xs
  induction xs with
  | nil => intro r; simp [decSeq]
  | cons x xs ih =>
    intro r
    simp only [List.map_cons, List.flatten_cons, List.length_cons, List.append_assoc]
    simp [decSeq, h, ih]

/-- `decCount` inverts `encCount`, given a sound element decoder. -/
theorem decCount_spec (dec : List Nat → Except String (α × List Nat)) (f : α → List Nat)
    (h : ∀ a r, dec (f a ++ r) = .ok (a, r)) (xs : List α) (r : List Nat) :
    decCount dec (encCount f xs ++ r) = .ok (xs, r) := by
  show decCount dec (xs.length :: ((xs.map f).flatten ++ r)) = .ok (xs, r)
  simp [decCount, decSeq_spec dec f h]

/-- `decOpt` inverts `encOpt`, given a sound element decoder. -/
theorem decOpt_spec (dec : List Nat → Except String (α × List Nat)) (f : α → List Nat)
    (h : ∀ a r, dec (f a ++ r) = .ok (a, r)) (o : Option α) (r : List Nat) :
    decOpt dec (encOpt f o ++ r) = .ok (o, r) := by
  cases o with
  | none => rfl
  | some a =>
    show decOpt dec (1 :: (f a ++ r)) = .ok (some a, r)
    simp [decOpt, h]

/-- `decTxOut` inverts `encTxOut`. -/
theorem decTxOut_spec (o : TxOut) (r : List Nat) : decTxOut (encTxOut o ++ r) = .ok (o, r) := by
  simp [encTxOut, decTxOut, List.append_assoc, decNat, encNat, decBytes_spec]

/-- `decTxInFull` inverts `encTxInFull`. -/
theorem decTxInFull_spec (i : TxIn) (r : List Nat) :
    decTxInFull (encTxInFull i ++ r) = .ok (i, r) := by
  simp [encTxInFull, decTxInFull, List.append_assoc, decNat, encNat, decBytes_spec,
    decCount_spec decBytes encBytes decBytes_spec]

/-- `decTxFull` inverts `serializeFull`. -/
theorem decTxFull_spec (tx : Transaction) (r : List Nat) :
    decTxFull (serializeFull tx ++ r) = .ok (tx, r) := by
  simp [serializeFull, decTxFull, List.append_assoc, decInt_spec, decNat, encNat,
    decCount_spec decTxInFull encTxInFull decTxInFull_spec,
    decCount_spec decTxOut encTxOut decTxOut_spec]

/-- `decPsbtIn` inverts `encPsbtIn`. -/
theorem decPsbtIn_spec (i : PsbtIn) (r : List Nat) :
    decPsbtIn (encPsbtIn i ++ r) = .ok (i, r) := by
  simp [encPsbtIn, decPsbtIn, List.append_assoc,
    decOpt_spec decTxOut encTxOut decTxOut_spec,
    decCount_spec decBytes encBytes decBytes_spec,
    decOpt_spec decBytes encBytes decBytes_spec,
    decOpt_spec (decCount decBytes) (encCount encBytes)
      (decCount_spec decBytes encBytes decBytes_spec)]

/-- PSBT deserialization inverts PSBT serialization. -/
theorem psbtDeserialize_serialize (p : Pstx) : psbtDeserialize (psbtSerialize p) = .ok p := by
  have h1 := decTxFull_spec p.unsigned_tx (encCount encPsbtIn p.inputs)
  have h2 := decCount_spec decPsbtIn encPsbtIn decPsbtIn_spec p.inputs ([] : List Nat)
  rw [List.append_nil] at h2
  simp [psbtDeserialize, psbtSerialize, h1, h2]

/-- Base64 decoding inverts base64 encoding. -/
theorem base64_rt (bs : List Nat) : base64Decode (base64Encode bs) = .ok bs := by
  induction bs with
  | nil => rfl
  | cons b bs ih =>
    show base64Decode (b % 64 :: b / 64 :: base64Encode bs) = .ok (b :: bs)
    simp [base64Decode, ih, Nat.mod_add_div]

/-!
## Structural lemmas about extraction and finalization
-/

/-- Extracting a transaction from a PSBT leaves the outputs untouched. -/
theorem extract_tx_output (p : Pstx) : (extract_tx p).output = p.unsigned_tx.output := rfl

/-- Successful extraction characterized: the record fields in terms of the
sums, available exactly when the outputs are covered by the witness-utxo
input sum. -/
theorem extract_details_ok (own : OwnQuery) (p : Pstx)
    (h : sentSum own (extract_tx p) + receivedSum own (extract_tx p) ≤ inputsValue p) :
    psbt_extract_details own p =
      .ok { sent := sentSum own (extract_tx p)
            received := receivedSum own (extract_tx p)
            fee := inputsValue p - sentSum own (extract_tx p) - receivedSum own (extract_tx p)
            base64 := base64Encode (psbtSerialize p)
            txid := toHex (serializeNW (extract_tx p))
            raw_tx := toHex (serializeFull (extract_tx p)) } := by
  simp only [psbt_extract_details]
  rw [if_pos h]

/-- Failed extraction characterized: when the outputs exceed the
witness-utxo sum, the unsigned subtraction panics. -/
theorem extract_details_panic (own : OwnQuery) (p : Pstx)
    (h : ¬ sentSum own (extract_tx p) + receivedSum own (extract_tx p) ≤ inputsValue p) :
    psbt_extract_details own p = .panicked "attempt to subtract with overflow" := by
  simp only [psbt_extract_details]
  rw [if_neg h]

/-- Inversion for successful extraction. -/
theorem extract_details_ok_inv (own : OwnQuery) (p : Pstx) (r : Psbt)
    (h : psbt_extract_details own p = .ok r) :
    r.sent = sentSum own (extract_tx p)
    ∧ r.received = receivedSum own (extract_tx p)
    ∧ r.fee = inputsValue p - r.sent - r.received
    ∧ r.txid = toHex (serializeNW (extract_tx p))
    ∧ r.sent + r.received ≤ inputsValue p := by
  by_cases hle : sentSum own (extract_tx p) + receivedSum own (extract_tx p) ≤ inputsValue p
  · rw [extract_details_ok own p hle] at h
    injection h with h
    subst h
    exact ⟨rfl, rfl, rfl, rfl, hle⟩
  · rw [extract_details_panic own p hle] at h
    exact absurd h (by simp)

/-- The owned/not-owned output partition covers the whole output sum. -/
theorem sum_filter_partition (q : TxOut → Bool) :
    ∀ l : List TxOut,
      ((l.filter q).map TxOut.value).sum + ((l.filter (fun o => ! q o)).map TxOut.value).sum
        = (l.map TxOut.value).sum := by
  intro l
  induction l with
  | nil => simp
  | cons x xs ih =>
    cases h : q x <;> simp [List.filter_cons, h] <;> omega

/-- The total input value comes solely from the witness-utxo annotations
present. -/
theorem inputsValue_aux :
    ∀ l : List PsbtIn,
      (l.map (fun i =>
        match i.witness_utxo with
        | none => 0
        | some u => u.value)).sum
        = ((l.filterMap PsbtIn.witness_utxo).map TxOut.value).sum := by
  intro l
  induction l with
  | nil => rfl
  | cons i is ih => cases h : i.witness_utxo <;> simp [List.filterMap_cons, h, ih]

/-- Finalizing one input map never changes its witness-utxo annotation nor
the effective final scriptSig the extracted transaction will carry. -/
theorem finalizeInput_preserves (i fi : PsbtIn) (h : finalizeInput i = .ok fi) :
    fi.witness_utxo = i.witness_utxo ∧ fi.final_script_sig.getD [] = i.final_script_sig.getD [] := by
  unfold finalizeInput at h
  cases hw : i.final_script_witness with
  | some w =>
    rw [hw] at h
    injection h with h
    subst h
    exact ⟨rfl, rfl⟩
  | none =>
    rw [hw] at h
    by_cases hs : i.sigs.isEmpty
    · rw [if_pos hs] at h
      exact absurd h (by simp)
    · rw [if_neg hs] at h
      injection h with h
      subst h
      exact ⟨rfl, by simp⟩

/-- Input-map finalization relates inputs pointwise. -/
theorem finalizeInputs_forall2 :
    ∀ pins qins, finalizeInputs pins = .ok qins →
      List.Forall₂ (fun a b => b.witness_utxo = a.witness_utxo
        ∧ b.final_script_sig.getD [] = a.final_script_sig.getD []) pins qins := by
  intro pins
  induction pins with
  | nil =>
    intro qins h
    unfold finalizeInputs at h
    injection h with h
    subst h
    exact List.Forall₂.nil
  | cons i is ih =>
    intro qins h
    unfold finalizeInputs at h
    cases h1 : finalizeInput i with
    | error e => rw [h1] at h; exact absurd h (by simp)
    | ok fi =>
      rw [h1] at h
      cases h2 : finalizeInputs is with
      | error e => rw [h2] at h; exact absurd h (by simp)
      | ok fis =>
        rw [h2] at h
        injection h with h
        subst h
        exact List.Forall₂.cons (finalizeInput_preserves i fi h1) (ih fis h2)

/-- The witness-stripped serialization of extracted inputs is unchanged by
finalization. -/
theorem zipWith_encNW :
    ∀ (pins qins : List PsbtIn),
      List.Forall₂ (fun a b => b.witness_utxo = a.witness_utxo
        ∧ b.final_script_sig.getD [] = a.final_script_sig.getD []) pins qins →
      ∀ tins : List TxIn,
        (List.zipWith applyFinal tins qins).map encTxInNW
          = (List.zipWith applyFinal tins pins).map encTxInNW := by
  intro pins qins h
  induction h with
  | nil => intro tins; rfl
  | cons hr ht ih =>
    intro tins
    cases tins with
    | nil => rfl
    | cons t ts => simp [List.zipWith, applyFinal, encTxInNW, hr.2, ih ts]

/-- The witness-utxo value sum is unchanged by finalization. -/
theorem forall2_wval_sum :
    ∀ (pins qins : List PsbtIn),
      List.Forall₂ (fun a b => b.witness_utxo = a.witness_utxo
        ∧ b.final_script_sig.getD [] = a.final_script_sig.getD []) pins qins →
      (qins.map (fun i =>
        match i.witness_utxo with
        | none => 0
        | some u => u.value)).sum
        = (pins.map (fun i =>
            match i.witness_utxo with
            | none => 0
            | some u => u.value)).sum := by
  intro pins qins h
  induction h with
  | nil => rfl
  | cons hr ht ih => simp [hr.1, ih]

/-- `encCount` respects pointwise-equal encodings. -/
theorem encCount_congr (f : α → List Nat) (l1 l2 : List α) (h : l1.map f = l2.map f) :
    encCount f l1 = encCount f l2 := by
  have hl : l1.length = l2.length := by
    rw [← List.length_map l1 f, h, List.length_map]
  simp [encCount, hl, h]

/-- Whole-PSBT finalization keeps the unsigned transaction. -/
theorem psbtFinalize_unsigned (p q : Pstx) (h : psbtFinalize p = .ok q) :
    q.unsigned_tx = p.unsigned_tx ∧ finalizeInputs p.inputs = .ok q.inputs := by
  unfold psbtFinalize at h
  cases h1 : finalizeInputs p.inputs with
  | error e => rw [h1] at h; exact absurd h (by simp)
  | ok is =>
    rw [h1] at h
    injection h with h
    subst h
    exact ⟨rfl, rfl⟩

/-- Finalization preserves the witness-stripped serialization (and hence
the transaction id) of the extracted transaction. -/
theorem finalize_serializeNW (p q : Pstx) (h : psbtFinalize p = .ok q) :
    serializeNW (extract_tx q) = serializeNW (extract_tx p) := by
  obtain ⟨hu, hi⟩ := psbtFinalize_unsigned p q h
  have hf := finalizeInputs_forall2 p.inputs q.inputs hi
  have hmap := zipWith_encNW p.inputs q.inputs hf p.unsigned_tx.input
  simp only [serializeNW, extract_tx, hu]
  rw [encCount_congr encTxInNW _ _ hmap]

/-- Finalization preserves the sent sum. -/
theorem finalize_sentSum (own : OwnQuery) (p q : Pstx) (h : psbtFinalize p = .ok q) :
    sentSum own (extract_tx q) = sentSum own (extract_tx p) := by
  obtain ⟨hu, _⟩ := psbtFinalize_unsigned p q h
  simp only [sentSum, extract_tx_output, hu]

/-- Finalization preserves the received sum. -/
theorem finalize_receivedSum (own : OwnQuery) (p q : Pstx) (h : psbtFinalize p = .ok q) :
    receivedSum own (extract_tx q) = receivedSum own (extract_tx p) := by
  obtain ⟨hu, _⟩ := psbtFinalize_unsigned p q h
  simp only [receivedSum, extract_tx_output, hu]

/-- Finalization preserves the witness-utxo input sum. -/
theorem finalize_inputsValue (p q : Pstx) (h : psbtFinalize p = .ok q) :
    inputsValue q = inputsValue p := by
  obtain ⟨_, hi⟩ := psbtFinalize_unsigned p q h
  exact forall2_wval_sum p.inputs q.inputs (finalizeInputs_forall2 p.inputs q.inputs hi)

/-- Decoding the base64 encoding of a serialized PSBT reaches finalization
with exactly that PSBT. -/
theorem decode_of_encode (own : OwnQuery) (p q : Pstx) (h : psbtFinalize p = .ok q) :
    wallet_decode_psbt own (base64Encode (psbtSerialize p)) = psbt_extract_details own q := by
  simp [wallet_decode_psbt, base64_rt, psbtDeserialize_serialize, h]

/-!
## Claim theorems
-/

/-- Claim C10 (confirmed): for every server address and proxy port, both
the blockchain-handle configuration and the query-client configuration
disable TLS domain validation, in direct and proxied mode alike; no
configuration path validates the server's domain. -/
theorem C10_theorem (tor_port : Int) (electrum_address : String) :
    (get_electrum_blockchain_config tor_port electrum_address).validate_domain = false
    ∧ (get_electrum_client tor_port electrum_address).map ElectrumClientConfig.validate_domain
        = .ok false := by
  constructor
  · by_cases h : tor_port > 0 <;> simp [get_electrum_blockchain_config, h]
  · by_cases h : tor_port > 0 <;>
      simp [get_electrum_client, h, setSocks5, setTimeout, setValidateDomain,
        configBuilderNew, Except.map]

/-- Claim C8 (corrected): the frozen claim asserts that both the
blockchain-handle constructor and the query-client constructor fix the gap
limit to the same constant; but the query-client configuration type has no
gap-limit field at all, so the two constructors do not fix the same gap
limit.  Shown at proxy port 0: the blockchain configuration fixes gap
limit 50 while the client configuration carries none. -/
theorem C8_counterexample :
    (get_electrum_blockchain_config 0 "server").gapLimit = some 50
    ∧ (get_electrum_client 0 "server").map ElectrumClientConfig.gapLimit = .ok none
    ∧ (get_electrum_client 0 "server").map ElectrumClientConfig.gapLimit
        ≠ .ok ((get_electrum_blockchain_config 0 "server").gapLimit) := by
  refine ⟨rfl, rfl, ?_⟩
  simp [get_electrum_client, get_electrum_blockchain_config, setSocks5, setTimeout,
    setValidateDomain, configBuilderNew, Except.map, ElectrumClientConfig.gapLimit,
    ElectrumBlockchainConfig.gapLimit]

/-- Claim C8 (amended): a proxy port of zero or negative selects direct
mode (no SOCKS proxy, 5 second timeout) and a positive port selects
proxied mode (loopback SOCKS endpoint at that port, no timeout) in both
constructors; the blockchain-handle configuration fixes the gap limit to
50 in both variants, while the query-client configuration has no gap-limit
setting at all. -/
theorem C8_theorem (tor_port : Int) (electrum_address : String) :
    (get_electrum_blockchain_config tor_port electrum_address).stop_gap = 50
    ∧ (tor_port ≤ 0 →
        (get_electrum_blockchain_config tor_port electrum_address).socks5 = none
        ∧ (get_electrum_blockchain_config tor_port electrum_address).timeout = some 5
        ∧ get_electrum_client tor_port electrum_address
            = .ok { socks5 := none, timeout := some 5, retry := 1, validate_domain := false })
    ∧ (0 < tor_port →
        (get_electrum_blockchain_config tor_port electrum_address).socks5
            = some ("127.0.0.1:" ++ toString tor_port)
        ∧ (get_electrum_blockchain_config tor_port electrum_address).timeout = none
        ∧ get_electrum_client tor_port electrum_address
            = .ok { socks5 := some { addr := "127.0.0.1:" ++ toString tor_port, credentials := none }
                    timeout := none, retry := 1, validate_domain := false })
    ∧ (get_electrum_client tor_port electrum_address).map ElectrumClientConfig.gapLimit
        = .ok none := by
  refine ⟨?_, ?_, ?_, ?_⟩
  · by_cases h : tor_port > 0 <;> simp [get_electrum_blockchain_config, h]
  · intro h
    have h2 : ¬ tor_port > 0 := by omega
    simp [get_electrum_blockchain_config, get_electrum_client, h2, setSocks5, setTimeout,
      setValidateDomain, configBuilderNew]
  · intro h
    simp [get_electrum_blockchain_config, get_electrum_client, h, setSocks5, setTimeout,
      setValidateDomain, configBuilderNew]
  · by_cases h : tor_port > 0 <;>
      simp [get_electrum_client, h, setSocks5, setTimeout, setValidateDomain,
        configBuilderNew, Except.map, ElectrumClientConfig.gapLimit]

/-- Claim C8 witness: the amended claim evaluated at a direct-mode port
(0) and a proxied-mode port (7). -/
theorem C8_witness :
    ((get_electrum_blockchain_config 0 "server").socks5 = none
      ∧ (get_electrum_blockchain_config 0 "server").timeout = some 5
      ∧ get_electrum_client 0 "server"
          = .ok { socks5 := none, timeout := some 5, retry := 1, validate_domain := false })
    ∧ ((get_electrum_blockchain_config 7 "server").socks5
          = some ("127.0.0.1:" ++ toString (7 : Int))
      ∧ (get_electrum_blockchain_config 7 "server").timeout = none
      ∧ get_electrum_client 7 "server"
          = .ok { socks5 := some { addr := "127.0.0.1:" ++ toString (7 : Int), credentials := none }
                  timeout := none, retry := 1, validate_domain := false }) :=
  ⟨(C8_theorem 0 "server").2.1 (by decide), (C8_theorem 7 "server").2.2.1 (by decide)⟩

/-- Claim C3 (confirmed): destination routing of `wallet_create_psbt`.  A
destination parsing as a payjoin-capable URI takes the payjoin negotiator
path; a URI without payjoin support takes the plain builder path with the
URI's embedded address; a non-URI string parsing as a bare address takes
the plain path; when neither parse succeeds the call reports the parse
error and returns the zero record. -/
theorem C3_theorem (own : OwnQuery) (finish : BuildFinish) (env : PjEnv)
    (uriOf : String → Option UriInfo) (addressOf : String → Option Address)
    (send_to : String) (amount : Nat) (fee_rate : Rat) :
    (∀ u, uriOf send_to = some u → u.pj_supported = true →
      wallet_create_psbt own finish env uriOf addressOf send_to amount fee_rate
        = create_payjoin own finish env u.address amount (fee_rate * 100000))
    ∧ (∀ u, uriOf send_to = some u → u.pj_supported = false →
      wallet_create_psbt own finish env uriOf addressOf send_to amount fee_rate
        = create_transaction own finish u.address amount (fee_rate * 100000))
    ∧ (∀ a, uriOf send_to = none → addressOf send_to = some a →
      wallet_create_psbt own finish env uriOf addressOf send_to amount fee_rate
        = create_transaction own finish a amount (fee_rate * 100000))
    ∧ (uriOf send_to = none → addressOf send_to = none →
      wallet_create_psbt own finish env uriOf addressOf send_to amount fee_rate
        = .reported "address parse error" error_return) := by
  refine ⟨?_, ?_, ?_, ?_⟩
  · intro u hu hpj
    simp [wallet_create_psbt, hu, hpj]
  · intro u hu hpj
    simp [wallet_create_psbt, hu, hpj]
  · intro a hu ha
    simp [wallet_create_psbt, hu, ha]
  · intro hu ha
    simp [wallet_create_psbt, hu, ha]

/-- Claim C3 witness: the four routing cases evaluated with concrete
parsers at concrete destination strings. -/
theorem C3_witness :
    wallet_create_psbt own0 finishErr envNoop uriOf3 addressOf3 "pjuri" 5 2
      = create_payjoin own0 finishErr envNoop { script_pubkey := [1], network := 0 } 5 (2 * 100000)
    ∧ wallet_create_psbt own0 finishErr envNoop uriOf3 addressOf3 "plainuri" 5 2
      = create_transaction own0 finishErr { script_pubkey := [2], network := 0 } 5 (2 * 100000)
    ∧ wallet_create_psbt own0 finishErr envNoop uriOf3 addressOf3 "addr" 5 2
      = create_transaction own0 finishErr { script_pubkey := [3], network := 0 } 5 (2 * 100000)
    ∧ wallet_create_psbt own0 finishErr envNoop uriOf3 addressOf3 "nonsense" 5 2
      = .reported "address parse error" error_return :=
  ⟨(C3_theorem own0 finishErr envNoop uriOf3 addressOf3 "pjuri" 5 2).1
      { address := { script_pubkey := [1], network := 0 }, pj_supported := true }
      (by decide) rfl,
   (C3_theorem own0 finishErr envNoop uriOf3 addressOf3 "plainuri" 5 2).2.1
      { address := { script_pubkey := [2], network := 0 }, pj_supported := false }
      (by decide) rfl,
   (C3_theorem own0 finishErr envNoop uriOf3 addressOf3 "addr" 5 2).2.2.1
      { script_pubkey := [3], network := 0 } (by decide) (by decide),
   (C3_theorem own0 finishErr envNoop uriOf3 addressOf3 "nonsense" 5 2).2.2.2
      (by decide) (by decide)⟩

/-- Claim C4 (confirmed): in PSBT detail extraction, an output whose
ownership query affirms counts as received, one it denies counts as sent,
and one whose query fails counts as sent (the conservative default); an
ownership-lookup failure never changes the outcome of the extraction
relative to its conservative classification, in particular it never aborts
it. -/
theorem C4_theorem (own : OwnQuery) (p : Pstx) (s : Script) :
    (∀ e, own s = .error e → isMineDefault own s = false)
    ∧ (∀ b, own s = .ok b → isMineDefault own s = b)
    ∧ psbt_extract_details own p
        = psbt_extract_details (fun t => .ok (isMineDefault own t)) p
    ∧ sentSum own (extract_tx p) + receivedSum own (extract_tx p)
        = ((extract_tx p).output.map TxOut.value).sum := by
  have hpt : ∀ t, isMineDefault (fun t => Except.ok (isMineDefault own t)) t
      = isMineDefault own t := by
    intro t
    simp [isMineDefault, Except.toOption]
  refine ⟨?_, ?_, ?_, ?_⟩
  · intro e he
    simp [isMineDefault, he, Except.toOption]
  · intro b hb
    simp [isMineDefault, hb, Except.toOption]
  · have hsent : sentSum (fun t => Except.ok (isMineDefault own t)) (extract_tx p)
        = sentSum own (extract_tx p) := by
      unfold sentSum
      rw [List.filter_congr (by intro o _; rw [hpt])]
    have hrecv : receivedSum (fun t => Except.ok (isMineDefault own t)) (extract_tx p)
        = receivedSum own (extract_tx p) := by
      unfold receivedSum
      rw [List.filter_congr (by intro o _; rw [hpt])]
    simp only [psbt_extract_details, hsent, hrecv]
  · rw [Nat.add_comm]
    exact sum_filter_partition (fun o => isMineDefault own o.script_pubkey) (extract_tx p).output

/-- Claim C4 witness: evaluated on a PSBT with an owned output, a foreign
output and an output whose ownership lookup fails. -/
theorem C4_witness :
    isMineDefault own0 [0] = false
    ∧ isMineDefault own0 [3] = true
    ∧ psbt_extract_details own0 p4
        = psbt_extract_details (fun t => .ok (isMineDefault own0 t)) p4
    ∧ sentSum own0 (extract_tx p4) + receivedSum own0 (extract_tx p4)
        = ((extract_tx p4).output.map TxOut.value).sum :=
  ⟨(C4_theorem own0 p4 [0]).1 "ownership query failed" rfl,
   (C4_theorem own0 p4 [3]).2.1 true rfl,
   (C4_theorem own0 p4 [0]).2.2.1,
   (C4_theorem own0 p4 [0]).2.2.2⟩

/-- Claim C9 (confirmed): the extractor's total input value is computed
solely from witness-utxo annotations (an input without one contributes
exactly zero), and the unguarded unsigned fee subtraction makes the
extraction yield a record exactly when sent plus received does not exceed
that witness-utxo sum. -/
theorem C9_theorem (own : OwnQuery) (p : Pstx) :
    inputsValue p = ((p.inputs.filterMap PsbtIn.witness_utxo).map TxOut.value).sum
    ∧ ((∃ r, psbt_extract_details own p = .ok r)
        ↔ sentSum own (extract_tx p) + receivedSum own (extract_tx p) ≤ inputsValue p) := by
  constructor
  · exact inputsValue_aux p.inputs
  · constructor
    · rintro ⟨r, hr⟩
      have h := extract_details_ok_inv own p r hr
      rw [← h.1, ← h.2.1]
      exact h.2.2.2.2
    · intro h
      exact ⟨_, extract_details_ok own p h⟩

/-- Claim C1 (corrected): the frozen claim asserts for every PSBT reaching
the detail extractor that the returned record satisfies the fee identity
and that sent plus received never exceeds the input value; but a PSBT
reachable through decode-and-finalize whose witness-utxo input sum does
not cover its outputs violates the bound, and the extractor then produces
no record at all (the unsigned subtraction panics). -/
theorem C1_counterexample :
    inputsValue pBad = 0
    ∧ sentSum ownAllFalse (extract_tx pBad) + receivedSum ownAllFalse (extract_tx pBad) = 1
    ∧ psbt_extract_details ownAllFalse pBad = .panicked "attempt to subtract with overflow"
    ∧ wallet_decode_psbt ownAllFalse (base64Encode (psbtSerialize pBad))
        = .panicked "attempt to subtract with overflow" := by
  refine ⟨rfl, rfl, rfl, ?_⟩
  rw [decode_of_encode ownAllFalse pBad pBad rfl]
  rfl

/-- Claim C1 (amended): for every wallet and every PSBT processed by the
detail extractor whose sent plus received total does not exceed the
witness-utxo input value, the returned record satisfies the fee identity
`fee = inputs_value - sent - received` exactly (equivalently
`fee + sent + received = inputs_value`), with sent the output value not
owned by the wallet and received the owned output value, and
`sent + received ≤ inputs_value`. -/
theorem C1_theorem (own : OwnQuery) (p : Pstx)
    (h : sentSum own (extract_tx p) + receivedSum own (extract_tx p) ≤ inputsValue p) :
    ∃ r, psbt_extract_details own p = .ok r
      ∧ r.sent = sentSum own (extract_tx p)
      ∧ r.received = receivedSum own (extract_tx p)
      ∧ r.fee = inputsValue p - r.sent - r.received
      ∧ r.fee + r.sent + r.received = inputsValue p
      ∧ r.sent + r.received ≤ inputsValue p := by
  refine ⟨_, extract_details_ok own p h, rfl, rfl, rfl, ?_, h⟩
  simp only
  omega

/-- Claim C1 witness: the amended claim evaluated on a concrete PSBT whose
outputs are covered by its witness-utxo input. -/
theorem C1_witness :
    sentSum own0 (extract_tx p4) + receivedSum own0 (extract_tx p4) ≤ inputsValue p4
    ∧ ∃ r, psbt_extract_details own0 p4 = .ok r
        ∧ r.sent = sentSum own0 (extract_tx p4)
        ∧ r.received = receivedSum own0 (extract_tx p4)
        ∧ r.fee = inputsValue p4 - r.sent - r.received
        ∧ r.fee + r.sent + r.received = inputsValue p4
        ∧ r.sent + r.received ≤ inputsValue p4 :=
  ⟨by decide, C1_theorem own0 p4 (by decide)⟩

/-- Claim C2 (code bug): on the payjoin path of build transaction, a PSBT
build failure is not reported to the Error Channel with the zero record;
the source's `expect` makes it panic across the boundary (its
`error_return` binding in `create_payjoin` is never used).  Evaluated:
a payjoin-capable destination whose coin selection fails. -/
theorem C2_theorem :
    wallet_create_psbt own0 finishErr envNoop uriPj addrNone "bitcoin:x?pj=y" 1000 1
      = .panicked "Could not create original psbt"
    ∧ finishErr [6] 1000 (1 * 100000) = .error "insufficient funds"
    ∧ wallet_create_psbt own0 finishErr envNoop uriPj addrNone "bitcoin:x?pj=y" 1000 1
      ≠ .reported "insufficient funds" error_return
    ∧ wallet_create_psbt own0 finishP0 envSendFail uriPj addrNone "bitcoin:x?pj=y" 40 1
      = .panicked "failed to communicate with payjoin recipient"
    ∧ wallet_create_psbt own0 finishP0 envNoop uriPj addrNone "bitcoin:x?pj=y" 40 1
      = .panicked "no response"
    ∧ create_transaction own0 finishErr addr7 1000 1
      = .reported "insufficient funds" error_return := by
  refine ⟨rfl, rfl, ?_, rfl, rfl, rfl⟩
  intro h
  exact absurd h (by simp [wallet_create_psbt, uriPj, create_payjoin, finishErr])

/-- Claim C5 (code bug): decode-and-finalize on a well-formed base64 PSBT
whose finalization fails (missing signatures) does not report through the
Error Channel with the zero record; the source `unwrap()`s the
finalization result and panics across the boundary.  Evaluated on an
unsigned PSBT. -/
theorem C5_theorem :
    psbtFinalize p0 = .error "missing signatures"
    ∧ wallet_decode_psbt own0 (base64Encode (psbtSerialize p0))
        = .panicked "missing signatures"
    ∧ wallet_decode_psbt own0 (base64Encode (psbtSerialize p0))
        ≠ .reported "missing signatures" error_return := by
  refine ⟨rfl, ?_, ?_⟩
  · have h1 := base64_rt (psbtSerialize p0)
    have h2 := psbtDeserialize_serialize p0
    simp [wallet_decode_psbt, h1, h2]
    rfl
  · have h1 := base64_rt (psbtSerialize p0)
    have h2 := psbtDeserialize_serialize p0
    simp [wallet_decode_psbt, h1, h2]
    decide

/-- Claim C6 (corrected): the frozen claim asserts that encoding a built
PSBT to base64 and passing it to decode-and-finalize reproduces the same
transaction id and raw hex, given no additional signing occurred; but for
a PSBT the builder produces — unsigned, with no final witness data —
finalization fails on the missing signatures, so decode-and-finalize
yields no record at all (it panics).  Evaluated: build transaction
produces `rec0`, and decode-and-finalize on its own base64 field panics.
-/
theorem C6_counterexample :
    create_transaction own0 finishP0 addr7 40 1 = .ok rec0
    ∧ rec0.base64 = base64Encode (psbtSerialize p0)
    ∧ wallet_decode_psbt own0 rec0.base64 = .panicked "missing signatures" := by
  refine ⟨rfl, rfl, ?_⟩
  show wallet_decode_psbt own0 (base64Encode (psbtSerialize p0)) = _
  have h1 := base64_rt (psbtSerialize p0)
  have h2 := psbtDeserialize_serialize p0
  simp [wallet_decode_psbt, h1, h2]
  rfl

/-- Claim C6 (amended): decoding the base64 of a built PSBT reproduces
that PSBT exactly, and when its finalization succeeds the
decode-and-finalize call extracts the finalized PSBT, whose
witness-stripped transaction — hence the transaction id — and whose sent,
received and input-value figures all equal the original build's; the raw
hex may differ, since finalization injects witness data into the extracted
transaction. -/
theorem C6_theorem (own : OwnQuery) (p q : Pstx) (h : psbtFinalize p = .ok q) :
    wallet_decode_psbt own (base64Encode (psbtSerialize p)) = psbt_extract_details own q
    ∧ toHex (serializeNW (extract_tx q)) = toHex (serializeNW (extract_tx p))
    ∧ sentSum own (extract_tx q) = sentSum own (extract_tx p)
    ∧ receivedSum own (extract_tx q) = receivedSum own (extract_tx p)
    ∧ inputsValue q = inputsValue p
    ∧ (∀ r r', psbt_extract_details own p = .ok r → psbt_extract_details own q = .ok r' →
        r'.txid = r.txid ∧ r'.sent = r.sent ∧ r'.received = r.received ∧ r'.fee = r.fee) := by
  have hnw := finalize_serializeNW p q h
  have hs := finalize_sentSum own p q h
  have hr := finalize_receivedSum own p q h
  have hv := finalize_inputsValue p q h
  refine ⟨decode_of_encode own p q h, by rw [hnw], hs, hr, hv, ?_⟩
  intro r r' hp hq
  obtain ⟨hps, hpr, hpf, hpt, _⟩ := extract_details_ok_inv own p r hp
  obtain ⟨hqs, hqr, hqf, hqt, _⟩ := extract_details_ok_inv own q r' hq
  refine ⟨?_, ?_, ?_, ?_⟩
  · rw [hpt, hqt, hnw]
  · rw [hps, hqs, hs]
  · rw [hpr, hqr, hr]
  · rw [hpf, hqf, hps, hqs, hpr, hqr, hs, hr, hv]

/-- Claim C6 witness: the amended claim evaluated on a signed PSBT whose
finalization succeeds. -/
theorem C6_witness :
    psbtFinalize p1 = .ok q1
    ∧ wallet_decode_psbt own0 (base64Encode (psbtSerialize p1)) = psbt_extract_details own0 q1
    ∧ toHex (serializeNW (extract_tx q1)) = toHex (serializeNW (extract_tx p1))
    ∧ sentSum own0 (extract_tx q1) = sentSum own0 (extract_tx p1)
    ∧ receivedSum own0 (extract_tx q1) = receivedSum own0 (extract_tx p1)
    ∧ inputsValue q1 = inputsValue p1 :=
  ⟨rfl,
   (C6_theorem own0 p1 q1 rfl).1,
   (C6_theorem own0 p1 q1 rfl).2.1,
   (C6_theorem own0 p1 q1 rfl).2.2.1,
   (C6_theorem own0 p1 q1 rfl).2.2.2.1,
   (C6_theorem own0 p1 q1 rfl).2.2.2.2.1⟩

/-- Claim C7 (corrected): the frozen claim asserts a non-negative BTC/kB
value on success; but on a successful estimate request the source returns
the server's value unchanged, and an Electrum server reports `-1` when it
has no estimate, so a successful call can return a negative value —
indistinguishable from the failure sentinel. -/
theorem C7_counterexample :
    est7 2 = .ok (-1)
    ∧ wallet_get_fee_rate 0 "server" conn7 est7 2 = .ok (-1)
    ∧ ((-1 : Rat) < 0) := by
  refine ⟨rfl, rfl, ?_⟩
  norm_num

/-- Claim C7 (amended): estimate fee rate returns exactly `-1.0` on every
failure path — client construction failure (reported to the Error Channel)
and failed estimate request (silently absorbed) — and on success returns
the server's BTC/kB estimate unchanged, with no non-negativity
guarantee. -/
theorem C7_theorem (tor_port : Int) (electrum_address : String)
    (connect : ElectrumClientConfig → Except String Unit)
    (estimate : Nat → Except String Rat) (target : Nat) :
    (∀ cfg e, get_electrum_client tor_port electrum_address = .ok cfg →
      connect cfg = .error e →
      wallet_get_fee_rate tor_port electrum_address connect estimate target
        = .reported e (-1))
    ∧ (∀ cfg e, get_electrum_client tor_port electrum_address = .ok cfg →
        connect cfg = .ok () → estimate target = .error e →
        wallet_get_fee_rate tor_port electrum_address connect estimate target = .ok (-1))
    ∧ (∀ cfg v, get_electrum_client tor_port electrum_address = .ok cfg →
        connect cfg = .ok () → estimate target = .ok v →
        wallet_get_fee_rate tor_port electrum_address connect estimate target = .ok v) := by
  refine ⟨?_, ?_, ?_⟩
  · intro cfg e hc hconn
    simp [wallet_get_fee_rate, hc, hconn]
  · intro cfg e hc hconn hest
    simp [wallet_get_fee_rate, hc, hconn, hest, Except.toOption]
  · intro cfg v hc hconn hest
    simp [wallet_get_fee_rate, hc, hconn, hest, Except.toOption]

/-- Claim C7 witness: the three paths of the amended claim evaluated with
concrete connection and estimator environments in direct mode. -/
theorem C7_witness :
    wallet_get_fee_rate 0 "server" connFail est7 2 = .reported "connection refused" (-1)
    ∧ wallet_get_fee_rate 0 "server" conn7 estErr 2 = .ok (-1)
    ∧ wallet_get_fee_rate 0 "server" conn7 estPos 2 = .ok (1 / 10) :=
  ⟨(C7_theorem 0 "server" connFail est7 2).1 cfgDirect "connection refused" rfl rfl,
   (C7_theorem 0 "server" conn7 estErr 2).2.1 cfgDirect "no estimate available" rfl rfl rfl,
   (C7_theorem 0 "server" conn7 estPos 2).2.2 cfgDirect (1 / 10) rfl rfl rfl⟩
